import Mathlib

/-!
Shallow embedding of the Cost Projection Engine of
`src/components/CostAnalysisChart.js` (repository dorothy-and-witch).

The engine is a handful of pure functions over numbers and lists.  JS
numbers are modelled as rationals (`ℚ`); the only place where IEEE
non-finite values can arise — the unguarded ROI division — is modelled
explicitly by the type `JSNumber` below.  React state updates
(`updateSpell`, `removeSpell`) are modelled as pure functions from the
previous list of scenario configurations to the next one, exactly as the
updater callbacks passed to `setSelectedSpells` compute them.  The
functions `generateSpellData`, `generateBaselineData`,
`calculateScenarioSavings` and `getRecommendedScenario` close over the
fixed constants `INITIAL_DRIVING_HOURS` and the memoised `predictedHours`
in the source; here those closure variables become explicit parameters
`hist` and `predictedHours`, so that the quantified properties of the
specification can be stated.  Chart rendering, colour tables and the
formatted recommendation strings (`toFixed` presentation) are outside the
engine and are not modelled.
-/

instance {ε α : Type} [DecidableEq ε] [DecidableEq α] : DecidableEq (Except ε α) :=
  fun a b =>
    match a, b with
    | .error e, .error f =>
      if h : e = f then .isTrue (congrArg Except.error h)
      else .isFalse fun hc => h (Except.error.inj hc)
    | .error _, .ok _ => .isFalse fun hc => Except.noConfusion hc
    | .ok _, .error _ => .isFalse fun hc => Except.noConfusion hc
    | .ok a, .ok b =>
      if h : a = b then .isTrue (congrArg Except.ok h)
      else .isFalse fun hc => h (Except.ok.inj hc)

/-- JS `Math.max` on two (ordered) values, written with `if` so that the
kernel can evaluate it on concrete rationals; `jsMax_eq_max` below shows
it is the mathematical `max`. -/
def jsMax (a b : ℚ) : ℚ := if a ≤ b then b else a

/-- Result of a JS floating-point division/multiplication chain: either a
finite (here: exact rational) value, or one of the IEEE non-finite values
`NaN`, `+Infinity`, `-Infinity` that JS division by zero produces. -/
inductive JSNumber where
  | finite : ℚ → JSNumber
  | nan : JSNumber
  | posInf : JSNumber
  | negInf : JSNumber
  deriving DecidableEq

/-- JS division `a / b` on (exact) numbers: division by zero yields
`NaN` when the numerator is zero and a signed infinity otherwise. -/
def jsDiv (a b : ℚ) : JSNumber :=
  if b = 0 then
    if a = 0 then .nan else if 0 < a then .posInf else .negInf
  else .finite (a / b)

/-- JS multiplication of a possibly non-finite value by a number
(used for the final `* 100` in the ROI computation). -/
def jsMul (x : JSNumber) (c : ℚ) : JSNumber :=
  match x with
  | .finite q => .finite (q * c)
  | .nan => .nan
  | .posInf => if 0 < c then .posInf else if c = 0 then .nan else .negInf
  | .negInf => if 0 < c then .negInf else if c = 0 then .nan else .posInf

/-- JS `Math.round`: round half toward positive infinity,
`Math.round x = ⌊x + 1/2⌋` (`Rat.floor` is the floor of `ℚ`,
`Rat.floor_def`). -/
def jsRound (q : ℚ) : ℤ := (q + 1 / 2).floor

/-- An entry of the array handed to `validateHours` /
`predictFutureHours`: either a number or a non-numeric value (anything
with `typeof hour !== "number"`). -/
inductive JSEntry where
  | num : ℚ → JSEntry
  | nonNumber : JSEntry
  deriving DecidableEq

/-- Numeric value of an entry.  After `validateHours` succeeds every
entry is numeric, so the `nonNumber` branch is unreachable in the code
paths that use this. -/
def JSEntry.val : JSEntry → ℚ
  | .num q => q
  | .nonNumber => 0

/-- `const INITIAL_DRIVING_HOURS = [23, 48, 43, 29, 50, 108]`. -/
def INITIAL_DRIVING_HOURS : List ℚ := [23, 48, 43, 29, 50, 108]

/-- `const BASE_COST_PER_HOUR = 100`. -/
def BASE_COST_PER_HOUR : ℚ := 100

/-- `const MONTHS = ["January", …, "December"]`. -/
def MONTHS : List String :=
  ["January", "February", "March", "April", "May", "June",
   "July", "August", "September", "October", "November", "December"]

/-- `calculateMonthlyCost(hours, costPerHour) = Math.max(0, hours * costPerHour)`.
The source gives `costPerHour` the default value `BASE_COST_PER_HOUR`;
call sites that omit the argument pass `BASE_COST_PER_HOUR` explicitly
here. -/
def calculateMonthlyCost (hours costPerHour : ℚ) : ℚ :=
  jsMax 0 (hours * costPerHour)

/-- `validateHours`: throws `"Invalid driving hours data"` on a
non-array or empty input (the non-array case is not representable in the
embedding, whose input is always a list); otherwise returns whether every
entry is a non-negative number. -/
def validateHours (hours : List JSEntry) : Except String Bool :=
  if hours.isEmpty then .error "Invalid driving hours data"
  else .ok (hours.all fun h =>
    match h with
    | .num q => decide (0 ≤ q)
    | .nonNumber => false)

/-- `predictFutureHours`: validate, then form the weighted average of the
last three entries (`slice(-3)`) with weights `index + 1`, and round.
`slice(-3)` is `drop (length - 3)`; the two `reduce` calls become
`foldl` over `enum` (value paired with its index inside the window). -/
def predictFutureHours (historicalHours : List JSEntry) : Except String ℤ :=
  match validateHours historicalHours with
  | .error e => .error e
  | .ok false => .error "Invalid hours data"
  | .ok true =>
    let vals := historicalHours.map JSEntry.val
    let window := vals.drop (vals.length - 3)
    let weightedAverage :=
      (window.enum.foldl (fun sum p => sum + p.2 * ((p.1 : ℚ) + 1)) 0) /
      (window.enum.foldl (fun sum p => sum + ((p.1 : ℚ) + 1)) 0)
    .ok (jsRound weightedAverage)

/-- One upgrade ("spell") option of the `SPELL_OPTIONS` catalog. -/
structure Spell where
  label : String
  tireCost : ℚ
  engineCost : ℚ
  hourlyRate : ℚ
  description : String
  efficiency : ℚ
  deriving DecidableEq

/-- The four keys of the `SPELL_OPTIONS` object. -/
inductive SpellKey where
  | NONE | TIRE | ENGINE | BOTH
  deriving DecidableEq

/-- The fixed `SPELL_OPTIONS` catalog. -/
def SPELL_OPTIONS : SpellKey → Spell
  | .NONE =>
    { label := "No Spell", tireCost := 0, engineCost := 0,
      hourlyRate := BASE_COST_PER_HOUR,
      description := "Continue journey with original car efficiency",
      efficiency := 1 }
  | .TIRE =>
    { label := "Tire Spell", tireCost := 10, engineCost := 0,
      hourlyRate := 93,
      description := "Upgrade tires for slightly improved efficiency",
      efficiency := 1.07 }
  | .ENGINE =>
    { label := "Engine Spell", tireCost := 0, engineCost := 32,
      hourlyRate := 83,
      description := "Upgrade engine for significant efficiency improvement",
      efficiency := 1.17 }
  | .BOTH =>
    { label := "Both Spells", tireCost := 10, engineCost := 32,
      hourlyRate := 83,
      description := "Comprehensive magical upgrade for maximum efficiency",
      efficiency := 1.25 }

/-- A scenario configuration entry of the `selectedSpells` list:
`{ spell, month, id }`. -/
structure SpellConfig where
  spell : Spell
  month : ℕ
  id : ℤ
  deriving DecidableEq

/-- `generateSpellData(spell, spellStartMonth)`: map over the 12 months;
historical costs for Jan–Jun, base-rate projection before the spell
month, one-time cost plus upgraded running cost in the spell month,
upgraded running cost afterwards.  `hist` and `predictedHours` are the
closure variables `INITIAL_DRIVING_HOURS` and `predictedHours` of the
source, made explicit. -/
def generateSpellData (hist : List ℚ) (predictedHours : ℚ)
    (spell : Spell) (spellStartMonth : ℕ) : List ℚ :=
  (List.range MONTHS.length).map fun index =>
    if index < 6 then
      calculateMonthlyCost (hist.getD index 0) BASE_COST_PER_HOUR
    else if index < spellStartMonth then
      calculateMonthlyCost predictedHours BASE_COST_PER_HOUR
    else
      let spellTotalCost := spell.tireCost + spell.engineCost
      let monthlyCost := calculateMonthlyCost predictedHours spell.hourlyRate
      if index = spellStartMonth then spellTotalCost + monthlyCost
      else monthlyCost

/-- `generateBaselineData`: historical costs for Jan–Jun, base-rate
projection from July on.  (The source wraps this in a `try`/`catch`
whose handler is unreachable for this pure arithmetic.) -/
def generateBaselineData (hist : List ℚ) (predictedHours : ℚ) : List ℚ :=
  (List.range MONTHS.length).map fun index =>
    if index < 6 then
      calculateMonthlyCost (hist.getD index 0) BASE_COST_PER_HOUR
    else
      calculateMonthlyCost predictedHours BASE_COST_PER_HOUR

/-- `removeSpell(spellId)`: the updater `prev.filter(spell => spell.id !== spellId)`. -/
def removeSpell (spellId : ℤ) (prev : List SpellConfig) : List SpellConfig :=
  prev.filter fun spell => decide (spell.id ≠ spellId)

/-- `updateSpell(id, newSpell, newMonth)`: the updater
`prev.map(spell => spell.id === id ? { ...spell, spell: newSpell, month: newMonth } : spell)`. -/
def updateSpell (id : ℤ) (newSpell : Spell) (newMonth : ℕ)
    (prev : List SpellConfig) : List SpellConfig :=
  prev.map fun spell =>
    if spell.id = id then { spell with spell := newSpell, month := newMonth }
    else spell

/-- The record returned by `calculateScenarioSavings`:
`{ savings, spellConfig, roi }`.  (`getRecommendedScenario` extends the
best one with presentation strings, which are not modelled.) -/
structure ScenarioAnalysis where
  savings : ℚ
  spellConfig : SpellConfig
  roi : JSNumber
  deriving DecidableEq

/-- `calculateScenarioSavings(spellConfig)`: total baseline cost minus
total scenario cost, and the unguarded ROI division
`(savings / (tireCost + engineCost)) * 100`. -/
def calculateScenarioSavings (hist : List ℚ) (predictedHours : ℚ)
    (spellConfig : SpellConfig) : ScenarioAnalysis :=
  let baselineCost := (generateBaselineData hist predictedHours).foldl (· + ·) 0
  let spellCost :=
    (generateSpellData hist predictedHours spellConfig.spell
      spellConfig.month).foldl (· + ·) 0
  { savings := baselineCost - spellCost
    spellConfig := spellConfig
    roi := jsMul
      (jsDiv (baselineCost - spellCost)
        (spellConfig.spell.tireCost + spellConfig.spell.engineCost)) 100 }

/-- The `reduce` callback of `getRecommendedScenario`:
`(best, current) => current.savings > best.savings ? current : best`. -/
def pickBest (best current : ScenarioAnalysis) : ScenarioAnalysis :=
  if best.savings < current.savings then current else best

/-- `getRecommendedScenario`: `null` when no scenario is configured,
otherwise `reduce` over all analyses with the first one
(`scenarioAnalysis[0]`) as initial accumulator, keeping the current
analysis only when its savings are strictly greater than the best so
far.  (The `description` / `recommendation` strings the source attaches
to the result are presentation-only and not modelled.) -/
def getRecommendedScenario (hist : List ℚ) (predictedHours : ℚ)
    (selectedSpells : List SpellConfig) : Option ScenarioAnalysis :=
  match selectedSpells.map (calculateScenarioSavings hist predictedHours) with
  | [] => none
  | x :: xs => some ((x :: xs).foldl pickBest x)

/-- Sample scenario list used by concrete witnesses. -/
def sampleConfigs : List SpellConfig :=
  [⟨SPELL_OPTIONS .TIRE, 6, 1⟩, ⟨SPELL_OPTIONS .NONE, 7, 2⟩]

/-- Sample default element used by concrete witnesses. -/
def sampleDefault : SpellConfig := ⟨SPELL_OPTIONS .NONE, 6, 0⟩

/-! ## General helper lemmas -/

theorem jsMax_eq_max (a b : ℚ) : jsMax a b = max a b := by
  rw [jsMax, max_def]

theorem mapRange_getD (g : ℕ → ℚ) (n i : ℕ) (d : ℚ) :
    ((List.range n).map g).getD i d = if i < n then g i else d := by
  by_cases h : i < n
  · rw [if_pos h,
      List.getD_eq_getElem _ _ (by simpa using h),
      List.getElem_map, List.getElem_range]
  · rw [if_neg h, List.getD_eq_default _ _ (by simpa using Nat.le_of_not_lt h)]

theorem calculateMonthlyCost_nonneg (a b : ℚ) : 0 ≤ calculateMonthlyCost a b := by
  rw [calculateMonthlyCost, jsMax_eq_max]
  exact le_max_left 0 (a * b)

theorem spellTotalCost_nonneg (k : SpellKey) :
    0 ≤ (SPELL_OPTIONS k).tireCost + (SPELL_OPTIONS k).engineCost := by
  cases k <;> norm_num [SPELL_OPTIONS]

theorem generateSpellData_getD (hist : List ℚ) (p : ℚ) (s : Spell) (m i : ℕ)
    (hi : i < 12) :
    (generateSpellData hist p s m).getD i 0 =
      if i < 6 then calculateMonthlyCost (hist.getD i 0) BASE_COST_PER_HOUR
      else if i < m then calculateMonthlyCost p BASE_COST_PER_HOUR
      else if i = m then
        s.tireCost + s.engineCost + calculateMonthlyCost p s.hourlyRate
      else calculateMonthlyCost p s.hourlyRate := by
  rw [generateSpellData, mapRange_getD]
  have hlen : MONTHS.length = 12 := rfl
  rw [hlen, if_pos hi]

theorem generateBaselineData_getD (hist : List ℚ) (p : ℚ) (i : ℕ)
    (hi : i < 12) :
    (generateBaselineData hist p).getD i 0 =
      if i < 6 then calculateMonthlyCost (hist.getD i 0) BASE_COST_PER_HOUR
      else calculateMonthlyCost p BASE_COST_PER_HOUR := by
  rw [generateBaselineData, mapRange_getD]
  have hlen : MONTHS.length = 12 := rfl
  rw [hlen, if_pos hi]

/-! ## Claim theorems -/

/-- C9: for every pair of rational inputs `x`, `r` (including negative
ones), `calculateMonthlyCost x r = max 0 (x * r)`, and the result is
never negative. -/
theorem calculateMonthlyCost_clamp (x r : ℚ) :
    calculateMonthlyCost x r = max 0 (x * r) ∧ 0 ≤ calculateMonthlyCost x r := by
  constructor
  · rw [calculateMonthlyCost, jsMax_eq_max]
  · rw [calculateMonthlyCost, jsMax_eq_max]
    exact le_max_left 0 (x * r)

/-- C2: for every historical series, predicted unit and activation month
in `[6, 11]`, the scenario series built with the no-upgrade option
(`SPELL_OPTIONS.NONE`: one-time cost `0`, rate equal to the base rate)
is exactly the baseline series. -/
theorem scenario_noUpgrade_eq_baseline (h : List ℚ) (p : ℚ) (m : ℕ)
    (hm1 : 6 ≤ m) (hm2 : m ≤ 11) :
    generateSpellData h p (SPELL_OPTIONS .NONE) m = generateBaselineData h p := by
  rw [generateSpellData, generateBaselineData]
  refine List.map_congr_left fun i hi => ?_
  by_cases h6 : i < 6
  · simp [h6]
  · by_cases hlt : i < m
    · simp [h6, hlt]
    · by_cases heq : i = m <;> simp [h6, hlt, heq, SPELL_OPTIONS]

/-- Witness for C2 at the repository's own data and activation month 7. -/
theorem scenario_noUpgrade_eq_baseline_w :
    (6 ≤ 7 ∧ 7 ≤ 11) ∧
      generateSpellData INITIAL_DRIVING_HOURS 76 (SPELL_OPTIONS .NONE) 7 =
        generateBaselineData INITIAL_DRIVING_HOURS 76 :=
  ⟨⟨by decide, by decide⟩,
    scenario_noUpgrade_eq_baseline INITIAL_DRIVING_HOURS 76 7 (by decide) (by decide)⟩

/-- C3: month-by-month shape of the scenario series for any option and
activation month `m ∈ [6, 11]`: months `0–5` are the historical actuals
at base rate, months `6 .. m−1` cost the predicted unit at base rate,
month `m` adds the option's one-time cost to the month at the option's
rate, and months after `m` cost the predicted unit at the option's
rate.  For `m = 6` the second interval is empty, so the activation
charge is immediate. -/
theorem generateSpellData_months (h : List ℚ) (p : ℚ) (s : Spell) (m : ℕ)
    (hm1 : 6 ≤ m) (hm2 : m ≤ 11) (i : ℕ) (hi : i < 12) :
    (i < 6 → (generateSpellData h p s m).getD i 0 =
        calculateMonthlyCost (h.getD i 0) BASE_COST_PER_HOUR) ∧
    (6 ≤ i → i < m → (generateSpellData h p s m).getD i 0 =
        calculateMonthlyCost p BASE_COST_PER_HOUR) ∧
    (i = m → (generateSpellData h p s m).getD i 0 =
        s.tireCost + s.engineCost + calculateMonthlyCost p s.hourlyRate) ∧
    (m < i → (generateSpellData h p s m).getD i 0 =
        calculateMonthlyCost p s.hourlyRate) := by
  rw [generateSpellData_getD h p s m i hi]
  refine ⟨fun h6 => ?_, fun h6 hlt => ?_, fun heq => ?_, fun hgt => ?_⟩
  · rw [if_pos h6]
  · rw [if_neg (by omega), if_pos hlt]
  · rw [if_neg (by omega), if_neg (by omega), if_pos heq]
  · rw [if_neg (by omega), if_neg (by omega), if_neg (by omega)]

/-- Witness for C3: activation month 6 with the combined upgrade — the
activation charge lands on month 6 itself. -/
theorem generateSpellData_months_w :
    ((6 : ℕ) ≤ 6 ∧ (6 : ℕ) ≤ 11 ∧ (6 : ℕ) < 12) ∧
      ((6 : ℕ) = 6 →
        (generateSpellData INITIAL_DRIVING_HOURS 76 (SPELL_OPTIONS .BOTH) 6).getD 6 0 =
          (SPELL_OPTIONS .BOTH).tireCost + (SPELL_OPTIONS .BOTH).engineCost +
            calculateMonthlyCost 76 (SPELL_OPTIONS .BOTH).hourlyRate) :=
  ⟨⟨by decide, by decide, by decide⟩,
    (generateSpellData_months INITIAL_DRIVING_HOURS 76 (SPELL_OPTIONS .BOTH) 6
      (by decide) (by decide) 6 (by decide)).2.2.1⟩

/-- C8: for any inputs (with the option drawn from the fixed catalog and
the activation month in `[6, 11]`), both series have exactly 12 entries
and every entry is non-negative. -/
theorem series_length_and_nonneg (hist : List ℚ) (p : ℚ) (k : SpellKey) (m : ℕ)
    (hhist : ∀ x ∈ hist, 0 ≤ x) (hp : 0 ≤ p) (hm1 : 6 ≤ m) (hm2 : m ≤ 11) :
    (generateBaselineData hist p).length = 12 ∧
    (∀ c ∈ generateBaselineData hist p, 0 ≤ c) ∧
    (generateSpellData hist p (SPELL_OPTIONS k) m).length = 12 ∧
    (∀ c ∈ generateSpellData hist p (SPELL_OPTIONS k) m, 0 ≤ c) := by
  refine ⟨?_, ?_, ?_, ?_⟩
  · simp [generateBaselineData, MONTHS]
  · intro c hc
    rw [generateBaselineData] at hc
    simp only [List.mem_map] at hc
    obtain ⟨i, _, rfl⟩ := hc
    split
    · exact calculateMonthlyCost_nonneg _ _
    · exact calculateMonthlyCost_nonneg _ _
  · simp [generateSpellData, MONTHS]
  · intro c hc
    rw [generateSpellData] at hc
    simp only [List.mem_map] at hc
    obtain ⟨i, _, rfl⟩ := hc
    split
    · exact calculateMonthlyCost_nonneg _ _
    · split
      · exact calculateMonthlyCost_nonneg _ _
      · split
        · exact add_nonneg (spellTotalCost_nonneg k) (calculateMonthlyCost_nonneg _ _)
        · exact calculateMonthlyCost_nonneg _ _

/-- Witness for C8 at the repository's own data, engine upgrade, month 9. -/
theorem series_length_and_nonneg_w :
    ((∀ x ∈ INITIAL_DRIVING_HOURS, (0 : ℚ) ≤ x) ∧ (0 : ℚ) ≤ 76 ∧
        (6 : ℕ) ≤ 9 ∧ (9 : ℕ) ≤ 11) ∧
      (generateBaselineData INITIAL_DRIVING_HOURS 76).length = 12 ∧
      (generateSpellData INITIAL_DRIVING_HOURS 76 (SPELL_OPTIONS .ENGINE) 9).length = 12 :=
  ⟨⟨by intro x hx; fin_cases hx <;> norm_num, by norm_num, by decide, by decide⟩,
    (series_length_and_nonneg INITIAL_DRIVING_HOURS 76 .ENGINE 9
      (by intro x hx; fin_cases hx <;> norm_num) (by norm_num)
      (by decide) (by decide)).1,
    (series_length_and_nonneg INITIAL_DRIVING_HOURS 76 .ENGINE 9
      (by intro x hx; fin_cases hx <;> norm_num) (by norm_num)
      (by decide) (by decide)).2.2.1⟩

/-- C7: the end-to-end scenario of the specification: historical series
`[23,48,43,29,50,108]`, predicted unit 76, combined upgrade (one-time
cost `10 + 32 = 42`, rate 83) activated at month 6.  Month 6 costs 6350,
months 7–11 cost 6308 each, the baseline total is 75700, the scenario
total is 67990, savings are 7710 and the ROI is `7710 / 42 * 100`. -/
theorem endToEnd_combined_upgrade :
    (SPELL_OPTIONS .BOTH).tireCost + (SPELL_OPTIONS .BOTH).engineCost = 42 ∧
    (SPELL_OPTIONS .BOTH).hourlyRate = 83 ∧
    generateSpellData INITIAL_DRIVING_HOURS 76 (SPELL_OPTIONS .BOTH) 6 =
      [2300, 4800, 4300, 2900, 5000, 10800, 6350, 6308, 6308, 6308, 6308, 6308] ∧
    (generateBaselineData INITIAL_DRIVING_HOURS 76).foldl (· + ·) 0 = 75700 ∧
    (generateSpellData INITIAL_DRIVING_HOURS 76 (SPELL_OPTIONS .BOTH) 6).foldl
      (· + ·) 0 = 67990 ∧
    (calculateScenarioSavings INITIAL_DRIVING_HOURS 76
      { spell := SPELL_OPTIONS .BOTH, month := 6, id := 0 }).savings = 7710 ∧
    (calculateScenarioSavings INITIAL_DRIVING_HOURS 76
      { spell := SPELL_OPTIONS .BOTH, month := 6, id := 0 }).roi =
      .finite (7710 / 42 * 100) := by
  refine ⟨?_, ?_, ?_, ?_, ?_, ?_, ?_⟩ <;> with_unfolding_all rfl

/-- C4 (counterexample to the claim as stated): for the no-upgrade
option the code does not raise or flag anything — dividing by the zero
one-time cost yields the IEEE value `NaN` (savings are 0), which is
returned as the scenario's numeric `roi`. -/
theorem roi_zero_cost_returns_nan :
    (calculateScenarioSavings INITIAL_DRIVING_HOURS 76
      { spell := SPELL_OPTIONS .NONE, month := 6, id := 0 }).roi = JSNumber.nan := by
  with_unfolding_all rfl

/-- C4 (amended): `calculateScenarioSavings` performs the ROI division
unguarded.  For an option with positive one-time cost the ROI is the
finite value `savings / oneTimeCost * 100`; for an option with zero
one-time cost the ROI is returned as a non-finite IEEE value (`NaN` or a
signed infinity), not raised or flagged. -/
theorem roi_division_spec (hist : List ℚ) (p : ℚ) (cfg : SpellConfig) :
    (0 < cfg.spell.tireCost + cfg.spell.engineCost →
      (calculateScenarioSavings hist p cfg).roi =
        .finite ((calculateScenarioSavings hist p cfg).savings /
          (cfg.spell.tireCost + cfg.spell.engineCost) * 100)) ∧
    (cfg.spell.tireCost + cfg.spell.engineCost = 0 →
      (calculateScenarioSavings hist p cfg).roi = .nan ∨
      (calculateScenarioSavings hist p cfg).roi = .posInf ∨
      (calculateScenarioSavings hist p cfg).roi = .negInf) := by
  rw [calculateScenarioSavings]
  dsimp only
  constructor
  · intro hpos
    rw [jsDiv, if_neg (ne_of_gt hpos)]
    rw [jsMul]
  · intro hzero
    rw [jsDiv, if_pos hzero]
    by_cases h0 : (generateBaselineData hist p).foldl (· + ·) 0 -
        (generateSpellData hist p cfg.spell cfg.month).foldl (· + ·) 0 = 0
    · rw [if_pos h0, jsMul]
      exact Or.inl rfl
    · rw [if_neg h0]
      by_cases hpos : 0 < (generateBaselineData hist p).foldl (· + ·) 0 -
          (generateSpellData hist p cfg.spell cfg.month).foldl (· + ·) 0
      · rw [if_pos hpos, jsMul, if_pos (by norm_num)]
        exact Or.inr (Or.inl rfl)
      · rw [if_neg hpos, jsMul, if_pos (by norm_num)]
        exact Or.inr (Or.inr rfl)

/-- C5: `predictFutureHours` succeeds exactly on a non-empty series all
of whose entries are non-negative numbers; it raises the invalid-input
error exactly when the series is empty or contains a non-numeric or
negative entry.  (A non-array argument is outside the embedding, whose
input type is already a sequence.) -/
theorem predictFutureHours_ok_iff (l : List JSEntry) :
    (∃ z, predictFutureHours l = .ok z) ↔
      (l ≠ [] ∧ ∀ v ∈ l, ∃ q : ℚ, v = .num q ∧ 0 ≤ q) := by
  have hval : validateHours l = .ok true ↔
      (l ≠ [] ∧ ∀ v ∈ l, ∃ q : ℚ, v = .num q ∧ 0 ≤ q) := by
    rw [validateHours]
    by_cases hl : l.isEmpty
    · have : l = [] := List.isEmpty_iff.1 hl
      subst this
      simp
    · have hne : l ≠ [] := fun h => by subst h; simp at hl
      rw [if_neg hl]
      simp only [Except.ok.injEq, List.all_eq_true, ne_eq, hne,
        not_false_iff, true_and]
      constructor
      · intro hall v hv
        have hx := hall v hv
        cases v with
        | num q => exact ⟨q, rfl, by simpa using hx⟩
        | nonNumber => simp at hx
      · intro hall v hv
        obtain ⟨q, rfl, hq⟩ := hall v hv
        simpa using hq
  rw [predictFutureHours.eq_def]
  cases hv : validateHours l with
  | error e =>
    rw [hv] at hval
    dsimp only
    constructor
    · rintro ⟨z, hz⟩
      exact Except.noConfusion hz
    · intro hr
      exact Except.noConfusion (hval.2 hr)
  | ok b =>
    cases b with
    | false =>
      rw [hv] at hval
      dsimp only
      constructor
      · rintro ⟨z, hz⟩
        exact Except.noConfusion hz
      · intro hr
        have hfe := hval.2 hr
        simp at hfe
    | true =>
      rw [hv] at hval
      dsimp only
      constructor
      · intro _
        exact hval.1 rfl
      · intro _
        exact ⟨_, rfl⟩

/-- C10: `updateSpell` keeps the length and order, changes exactly the
`spell` and `month` fields of the entries whose `id` matches (their `id`
is kept) and leaves every other entry unchanged; `removeSpell` removes
exactly the entries whose `id` matches (all of them), keeping the others
unchanged, in order and with their multiplicity. -/
theorem updateSpell_removeSpell_frame (sid : ℤ) (ns : Spell) (nm : ℕ)
    (l : List SpellConfig) :
    ((updateSpell sid ns nm l).length = l.length ∧
      (∀ (d : SpellConfig) (i : ℕ), i < l.length →
        ((l.getD i d).id = sid →
          (updateSpell sid ns nm l).getD i d =
            { spell := ns, month := nm, id := (l.getD i d).id }) ∧
        ((l.getD i d).id ≠ sid →
          (updateSpell sid ns nm l).getD i d = l.getD i d))) ∧
    ((removeSpell sid l).Sublist l ∧
      (∀ c ∈ removeSpell sid l, c.id ≠ sid) ∧
      (∀ c ∈ l, c.id ≠ sid → c ∈ removeSpell sid l) ∧
      (∀ c : SpellConfig, c.id ≠ sid →
        (removeSpell sid l).count c = l.count c)) := by
  refine ⟨⟨?_, ?_⟩, ?_, ?_, ?_, ?_⟩
  · rw [updateSpell]
    exact List.length_map l _
  · intro d i hi
    have he : l.getD i d = l[i] := List.getD_eq_getElem l d hi
    have he2 : (updateSpell sid ns nm l).getD i d =
        (if l[i].id = sid then { l[i] with spell := ns, month := nm }
          else l[i]) := by
      rw [updateSpell,
        List.getD_eq_getElem _ _ (by rw [List.length_map]; exact hi),
        List.getElem_map]
    rw [he, he2]
    constructor
    · intro hid
      rw [if_pos hid]
    · intro hid
      rw [if_neg hid]
  · exact List.filter_sublist l
  · intro c hc
    have hmem := List.mem_filter.1 hc
    simpa using hmem.2
  · intro c hc hne
    exact List.mem_filter.2 ⟨hc, by simpa using hne⟩
  · intro c hne
    exact List.count_filter (by simpa using hne)

/-- Witness for C10 on a concrete two-element scenario list. -/
theorem updateSpell_removeSpell_frame_w :
    ((0 : ℕ) < sampleConfigs.length ∧
        (sampleConfigs.getD 0 sampleDefault).id = 1) ∧
      (updateSpell 1 (SPELL_OPTIONS .ENGINE) 8 sampleConfigs).getD 0 sampleDefault =
        { spell := SPELL_OPTIONS .ENGINE, month := 8,
          id := (sampleConfigs.getD 0 sampleDefault).id } ∧
      ((2 : ℤ) ≠ 1 ∧
        (removeSpell 1 sampleConfigs).count ⟨SPELL_OPTIONS .NONE, 7, 2⟩ =
          sampleConfigs.count ⟨SPELL_OPTIONS .NONE, 7, 2⟩) :=
  ⟨⟨by decide, rfl⟩,
    ((updateSpell_removeSpell_frame 1 (SPELL_OPTIONS .ENGINE) 8
        sampleConfigs).1.2 sampleDefault 0 (by decide)).1 rfl,
    ⟨by decide,
      (updateSpell_removeSpell_frame 1 (SPELL_OPTIONS .ENGINE) 8
        sampleConfigs).2.2.2.2 ⟨SPELL_OPTIONS .NONE, 7, 2⟩ (by decide)⟩⟩

/-- Witness for the amended C4 at the combined upgrade (one-time cost 42). -/
theorem roi_division_spec_w :
    (0 : ℚ) <
        (SPELL_OPTIONS .BOTH).tireCost + (SPELL_OPTIONS .BOTH).engineCost ∧
      (calculateScenarioSavings INITIAL_DRIVING_HOURS 76
          { spell := SPELL_OPTIONS .BOTH, month := 6, id := 0 }).roi =
        .finite ((calculateScenarioSavings INITIAL_DRIVING_HOURS 76
            { spell := SPELL_OPTIONS .BOTH, month := 6, id := 0 }).savings /
          ((SPELL_OPTIONS .BOTH).tireCost + (SPELL_OPTIONS .BOTH).engineCost) * 100) :=
  ⟨by norm_num [SPELL_OPTIONS],
    (roi_division_spec INITIAL_DRIVING_HOURS 76
      { spell := SPELL_OPTIONS .BOTH, month := 6, id := 0 }).1
      (by norm_num [SPELL_OPTIONS])⟩

/-! ## Helper lemmas for the weighted-average prediction (C1) -/

theorem enumFrom_foldl_weightedSum (w : List ℚ) : ∀ (n : ℕ) (a : ℚ),
    (List.enumFrom n w).foldl (fun sum p => sum + p.2 * ((p.1 : ℚ) + 1)) a =
      a + ∑ i ∈ Finset.range w.length, w.getD i 0 * ((n : ℚ) + (i : ℚ) + 1) := by
  induction w with
  | nil => intro n a; simp
  | cons h t ih =>
    intro n a
    rw [List.enumFrom_cons, List.foldl_cons,
      ih (n + 1) (a + h * ((n : ℚ) + 1)),
      List.length_cons, Finset.sum_range_succ']
    simp only [List.getD_cons_zero, List.getD_cons_succ]
    have hsum : ∑ i ∈ Finset.range t.length,
          t.getD i 0 * (((n + 1 : ℕ) : ℚ) + (i : ℚ) + 1)
        = ∑ i ∈ Finset.range t.length,
          t.getD i 0 * ((n : ℚ) + ((i + 1 : ℕ) : ℚ) + 1) := by
      refine Finset.sum_congr rfl fun i _ => ?_
      push_cast
      ring
    rw [hsum]
    push_cast
    ring

theorem enumFrom_foldl_weightSum (w : List ℚ) : ∀ (n : ℕ) (a : ℚ),
    (List.enumFrom n w).foldl (fun sum p => sum + ((p.1 : ℚ) + 1)) a =
      a + ∑ i ∈ Finset.range w.length, ((n : ℚ) + (i : ℚ) + 1) := by
  induction w with
  | nil => intro n a; simp
  | cons h t ih =>
    intro n a
    rw [List.enumFrom_cons, List.foldl_cons, ih (n + 1) (a + ((n : ℚ) + 1)),
      List.length_cons, Finset.sum_range_succ']
    have hsum : ∑ i ∈ Finset.range t.length, (((n + 1 : ℕ) : ℚ) + (i : ℚ) + 1)
        = ∑ i ∈ Finset.range t.length, ((n : ℚ) + ((i + 1 : ℕ) : ℚ) + 1) := by
      refine Finset.sum_congr rfl fun i _ => ?_
      push_cast
      ring
    rw [hsum]
    push_cast
    ring

theorem enum_foldl_weightedSum (w : List ℚ) :
    w.enum.foldl (fun sum p => sum + p.2 * ((p.1 : ℚ) + 1)) 0 =
      ∑ i ∈ Finset.range w.length, w.getD i 0 * ((i : ℚ) + 1) := by
  have h := enumFrom_foldl_weightedSum w 0 0
  rw [zero_add] at h
  rw [show w.enum = List.enumFrom 0 w from rfl, h]
  refine Finset.sum_congr rfl fun i _ => ?_
  push_cast
  ring

theorem enum_foldl_weightSum (w : List ℚ) :
    w.enum.foldl (fun sum p => sum + ((p.1 : ℚ) + 1)) 0 =
      ∑ i ∈ Finset.range w.length, ((i : ℚ) + 1) := by
  have h := enumFrom_foldl_weightSum w 0 0
  rw [zero_add] at h
  rw [show w.enum = List.enumFrom 0 w from rfl, h]
  refine Finset.sum_congr rfl fun i _ => ?_
  push_cast
  ring

theorem map_num_val (l : List ℚ) : (l.map JSEntry.num).map JSEntry.val = l := by
  rw [List.map_map]
  have hid : ∀ a ∈ l, (JSEntry.val ∘ JSEntry.num) a = id a := fun a _ => rfl
  rw [List.map_congr_left hid, List.map_id]

/-- C1: for every non-empty series of non-negative numbers,
`predictFutureHours` returns the weighted average of the trailing window
of (at most) the last 3 values, the `i`-th element of the window
(0-indexed) receiving weight `i + 1`, rounded to the nearest integer
(halves up); in particular the repository's series predicts 76. -/
theorem predictFutureHours_weighted (l : List ℚ) (hne : l ≠ [])
    (hnn : ∀ x ∈ l, 0 ≤ x) :
    predictFutureHours (l.map .num) =
      .ok (jsRound (
        (∑ i ∈ Finset.range (l.drop (l.length - 3)).length,
            (l.drop (l.length - 3)).getD i 0 * ((i : ℚ) + 1)) /
        (∑ i ∈ Finset.range (l.drop (l.length - 3)).length, ((i : ℚ) + 1)))) ∧
    predictFutureHours (INITIAL_DRIVING_HOURS.map .num) = .ok 76 := by
  constructor
  · have hv : validateHours (l.map JSEntry.num) = .ok true := by
      rw [validateHours,
        if_neg (by cases l with
          | nil => exact absurd rfl hne
          | cons a t => simp)]
      congr 1
      rw [List.all_eq_true]
      intro x hx
      obtain ⟨q, hq, rfl⟩ := List.mem_map.1 hx
      simpa using hnn q hq
    rw [predictFutureHours.eq_def, hv]
    dsimp only
    rw [map_num_val, enum_foldl_weightedSum, enum_foldl_weightSum]
  · with_unfolding_all rfl

/-- Witness for C1 at the repository's own historical series. -/
theorem predictFutureHours_weighted_w :
    (INITIAL_DRIVING_HOURS ≠ [] ∧ ∀ x ∈ INITIAL_DRIVING_HOURS, (0 : ℚ) ≤ x) ∧
      predictFutureHours (INITIAL_DRIVING_HOURS.map .num) = .ok 76 :=
  ⟨⟨by decide, by norm_num [INITIAL_DRIVING_HOURS]⟩,
    (predictFutureHours_weighted INITIAL_DRIVING_HOURS (by decide)
      (by norm_num [INITIAL_DRIVING_HOURS])).2⟩

/-! ## Helper lemma for the best-scenario selection (C6) -/

theorem foldl_pickBest_spec (l : List ScenarioAnalysis) :
    ∀ b : ScenarioAnalysis,
      (List.foldl pickBest b l = b ∧ ∀ c ∈ l, c.savings ≤ b.savings) ∨
      (∃ l1 r l2, l = l1 ++ r :: l2 ∧ List.foldl pickBest b l = r ∧
        b.savings < r.savings ∧ (∀ c ∈ l1, c.savings < r.savings) ∧
        (∀ c ∈ l, c.savings ≤ r.savings)) := by
  induction l with
  | nil =>
    intro b
    left
    exact ⟨rfl, by simp⟩
  | cons c t ih =>
    intro b
    rw [List.foldl_cons]
    by_cases hbc : b.savings < c.savings
    · rw [show pickBest b c = c from if_pos hbc]
      rcases ih c with ⟨heq, hle⟩ | ⟨l1, r, l2, heq, hfold, hlt, hl1, hall⟩
      · right
        refine ⟨[], c, t, rfl, heq, hbc, by simp, ?_⟩
        intro x hx
        rcases List.mem_cons.1 hx with rfl | hx
        · exact le_refl _
        · exact hle x hx
      · right
        refine ⟨c :: l1, r, l2, by rw [heq, List.cons_append], hfold,
          lt_trans hbc hlt, ?_, ?_⟩
        · intro x hx
          rcases List.mem_cons.1 hx with rfl | hx
          · exact hlt
          · exact hl1 x hx
        · intro x hx
          rcases List.mem_cons.1 hx with rfl | hx
          · exact le_of_lt hlt
          · exact hall x hx
    · rw [show pickBest b c = b from if_neg hbc]
      rcases ih b with ⟨heq, hle⟩ | ⟨l1, r, l2, heq, hfold, hlt, hl1, hall⟩
      · left
        refine ⟨heq, ?_⟩
        intro x hx
        rcases List.mem_cons.1 hx with rfl | hx
        · exact not_lt.1 hbc
        · exact hle x hx
      · right
        refine ⟨c :: l1, r, l2, by rw [heq, List.cons_append], hfold, hlt, ?_, ?_⟩
        · intro x hx
          rcases List.mem_cons.1 hx with rfl | hx
          · exact lt_of_le_of_lt (not_lt.1 hbc) hlt
          · exact hl1 x hx
        · intro x hx
          rcases List.mem_cons.1 hx with rfl | hx
          · exact le_of_lt (lt_of_le_of_lt (not_lt.1 hbc) hlt)
          · exact hall x hx

/-- C6: on a non-empty scenario list the engine recommends an analysis
`r` that sits at some position of the analysis list (`pre ++ r :: post`),
whose savings are maximal, and every analysis strictly before it has
strictly smaller savings — so on exact ties the earliest entry of the
input list wins. -/
theorem selectBestScenario_spec (hist : List ℚ) (p : ℚ)
    (spells : List SpellConfig) (hne : spells ≠ []) :
    ∃ r pre post,
      getRecommendedScenario hist p spells = some r ∧
      spells.map (calculateScenarioSavings hist p) = pre ++ r :: post ∧
      (∀ c ∈ spells.map (calculateScenarioSavings hist p),
        c.savings ≤ r.savings) ∧
      (∀ c ∈ pre, c.savings < r.savings) := by
  obtain ⟨s, ss, rfl⟩ : ∃ s ss, spells = s :: ss := by
    cases spells with
    | nil => exact absurd rfl hne
    | cons s ss => exact ⟨s, ss, rfl⟩
  rw [getRecommendedScenario, List.map_cons]
  dsimp only
  rw [List.foldl_cons,
    show pickBest (calculateScenarioSavings hist p s)
        (calculateScenarioSavings hist p s) =
      calculateScenarioSavings hist p s from if_neg (lt_irrefl _)]
  rcases foldl_pickBest_spec (ss.map (calculateScenarioSavings hist p))
      (calculateScenarioSavings hist p s) with
    ⟨heq, hle⟩ | ⟨l1, r, l2, heq, hfold, hlt, hl1, hall⟩
  · refine ⟨calculateScenarioSavings hist p s, [],
      ss.map (calculateScenarioSavings hist p), by rw [heq], by simp, ?_, by simp⟩
    intro c hc
    rcases List.mem_cons.1 hc with rfl | hc
    · exact le_refl _
    · exact hle c hc
  · refine ⟨r, calculateScenarioSavings hist p s :: l1, l2, by rw [hfold],
      by rw [heq, List.cons_append], ?_, ?_⟩
    · intro c hc
      rcases List.mem_cons.1 hc with rfl | hc
      · exact le_of_lt hlt
      · exact hall c hc
    · intro c hc
      rcases List.mem_cons.1 hc with rfl | hc
      · exact hlt
      · exact hl1 c hc

/-- Witness for C6 on a concrete two-element scenario list (two
scenarios with equal savings, the first one wins). -/
theorem selectBestScenario_spec_w :
    (([⟨SPELL_OPTIONS .TIRE, 6, 1⟩, ⟨SPELL_OPTIONS .TIRE, 6, 2⟩] :
        List SpellConfig) ≠ []) ∧
      (∃ r pre post,
        getRecommendedScenario INITIAL_DRIVING_HOURS 76
            [⟨SPELL_OPTIONS .TIRE, 6, 1⟩, ⟨SPELL_OPTIONS .TIRE, 6, 2⟩] = some r ∧
        ([⟨SPELL_OPTIONS .TIRE, 6, 1⟩, ⟨SPELL_OPTIONS .TIRE, 6, 2⟩] :
            List SpellConfig).map
          (calculateScenarioSavings INITIAL_DRIVING_HOURS 76) = pre ++ r :: post ∧
        (∀ c ∈ ([⟨SPELL_OPTIONS .TIRE, 6, 1⟩, ⟨SPELL_OPTIONS .TIRE, 6, 2⟩] :
            List SpellConfig).map
          (calculateScenarioSavings INITIAL_DRIVING_HOURS 76),
          c.savings ≤ r.savings) ∧
        (∀ c ∈ pre, c.savings < r.savings)) :=
  ⟨by decide,
    selectBestScenario_spec INITIAL_DRIVING_HOURS 76
      [⟨SPELL_OPTIONS .TIRE, 6, 1⟩, ⟨SPELL_OPTIONS .TIRE, 6, 2⟩] (by decide)⟩
